import Mathlib

/-!
Verification of the Download Task Scheduling and Transfer Execution Engine
of the OceanDataTransformer repository.

The definitions below are a shallow embedding of the Python sources:
- backend/app/services/task_scheduler.py (class TaskScheduler)
- backend/app/services/data_download_service.py (class DownloadService)
- backend/app/crud/crud_download_task.py (class CRUDDownloadTask)
- backend/app/models/download_task.py (model DownloadTask)

Stateful methods are embedded as explicit state-passing functions over an
association-list task store; asynchronous tasks are embedded as handles
carrying a cancel-requested flag and an observed-cancellation flag; network
I/O outcomes are supplied by explicit oracles (per-file transfer results,
exception oracles), so that a single driver run is a pure function of the
oracle values.
-/

namespace ODT

/-- Task status strings used by the engine
    (model comment in download_task.py: pending, running, paused,
    completed, failed, cancelled; the spec also lists queued). -/
inductive Status where
  | pending
  | queued
  | running
  | paused
  | completed
  | failed
  | cancelled
deriving DecidableEq, Repr

/-- The DownloadTask record (backend/app/models/download_task.py), restricted
    to the fields the scheduling/transfer engine reads or writes.
    progress is a percentage; the queued_at timestamp written by
    add_task_to_queue is wall-clock data and is not modelled. -/
structure Task where
  sourceId : Nat
  savePath : String
  filenamePattern : String
  maxRetries : Nat
  timeout : Nat
  status : Status
  progress : Rat
  fileSize : Option Nat
  downloadedSize : Nat
  errorMessage : Option String
  metaPriority : Option Nat
deriving DecidableEq, Repr

/-- The DataSource record, restricted to the fields the engine reads. -/
structure DataSource where
  url : String
  protocol : String
  authRequired : Bool
deriving DecidableEq, Repr

/-- The task table: association list from task id to Task record. -/
abbrev Store := List (Nat × Task)

/-- The data-source table. -/
abbrev SourceStore := List (Nat × DataSource)

/-- CRUDDownloadTask.get: first record with the given id. -/
def getTask (s : Store) (id : Nat) : Option Task :=
  (s.find? (fun p => p.1 = id)).map (fun p => p.2)

/-- In-place update of the record with the given id (SQLAlchemy mutates the
    row object; ids are unchanged). -/
def setTask (s : Store) (id : Nat) (t : Task) : Store :=
  s.map (fun p => if p.1 = id then (id, t) else p)

/-- CRUDDataSource.get. -/
def getSource (s : SourceStore) (id : Nat) : Option DataSource :=
  (s.find? (fun p => p.1 = id)).map (fun p => p.2)

/-- CRUDDownloadTask.set_status: looks the task up, sets status
    unconditionally, and overwrites error_message only when a truthy
    (non-empty) message is supplied; a missing task is a no-op. -/
def setStatus (s : Store) (id : Nat) (st : Status) (err : Option String) : Store :=
  match getTask s id with
  | none => s
  | some t =>
      let t := { t with status := st }
      let t := match err with
        | some e => if e = "" then t else { t with errorMessage := some e }
        | none => t
      setTask s id t

/-- CRUDDownloadTask.update_progress: sets progress and, when supplied,
    downloaded_size; a missing task is a no-op. -/
def updateProgress (s : Store) (id : Nat) (progress : Rat) (dl : Option Nat) : Store :=
  match getTask s id with
  | none => s
  | some t =>
      let t := { t with progress := progress }
      let t := match dl with
        | some d => { t with downloadedSize := d }
        | none => t
      setTask s id t

/-! ### TaskScheduler queue operations (task_scheduler.py) -/

/-- TaskScheduler._get_task_priority: the source returns the constant
    default priority 5 for every task id ("simplified implementation"). -/
def getTaskPriority (_taskId : Nat) : Nat := 5

/-- TaskScheduler._insert_by_priority: scan the queue left to right and
    insert before the first entry whose (looked-up) priority is strictly
    larger than the new priority; append otherwise. -/
def insertByPriority (q : List Nat) (taskId : Nat) (priority : Nat) : List Nat :=
  match q with
  | [] => [taskId]
  | x :: xs =>
      if priority < getTaskPriority x then taskId :: x :: xs
      else x :: insertByPriority xs taskId priority

/-- TaskScheduler.add_task_to_queue: raise ValueError when the task id is
    unknown; otherwise record the priority in task_metadata and insert the
    id into the pending queue. -/
def addTaskToQueue (store : Store) (q : List Nat) (taskId priority : Nat) :
    Except String (Store × List Nat) :=
  match getTask store taskId with
  | none => .error ("Task " ++ toString taskId ++ " not found")
  | some t =>
      let t := { t with metaPriority := some priority }
      .ok (setTask store taskId t, insertByPriority q taskId priority)

/-- TaskScheduler.remove_task_from_queue: remove the first occurrence of the
    id when present. -/
def removeTaskFromQueue (q : List Nat) (taskId : Nat) : List Nat :=
  if taskId ∈ q then q.erase taskId else q

/-! ### Dispatch (DownloadService.start_download) and the admission loop -/

/-- DownloadService.start_download, with the body of its try block embedded
    step by step. The oracle exc models an exception raised inside the try
    block (the except branch then marks the task failed with the exception
    message and returns False). Without an exception: a missing Task or a
    missing DataSource returns False with the store untouched; otherwise the
    task is set to running, the transfer coroutine is registered in
    active_downloads, and True is returned. -/
def startDownload (store : Store) (sources : SourceStore) (exc : Nat → Option String)
    (active : List Nat) (id : Nat) : Bool × Store × List Nat :=
  match exc id with
  | some e => (false, setStatus store id .failed (some e), active)
  | none =>
      match getTask store id with
      | none => (false, store, active)
      | some t =>
          match getSource sources t.sourceId with
          | none => (false, store, active)
          | some _ => (true, setStatus store id .running none, active ++ [id])

/-- TaskScheduler._monitor_task exit condition: the monitor coroutine
    finishes (task.done() becomes true) once the stored status is terminal
    or the task record has been deleted. -/
def monitorDone (store : Store) (id : Nat) : Bool :=
  match getTask store id with
  | none => true
  | some t => t.status = .completed || t.status = .failed || t.status = .cancelled

/-- Result of one admission pass of TaskScheduler._process_queue.
    dispatched records every id for which start_download was invoked
    (the transfer-driver invocations); started records the ids for which it
    returned True (the ids that occupied a concurrency slot). -/
structure PassResult where
  store : Store
  running : List Nat
  active : List Nat
  dispatched : List Nat
  started : List Nat
  queue : List Nat
deriving DecidableEq, Repr

/-- The while loop of TaskScheduler._process_queue: while a concurrency slot
    is free and the queue is non-empty, pop the head, re-verify in the store
    that it is still pending (skip otherwise), and dispatch it; a successful
    dispatch consumes one slot and is tracked in running_tasks. A failed
    dispatch (False or exception) consumes nothing and the loop continues. -/
def processLoop (sources : SourceStore) (exc : Nat → Option String) :
    List Nat → Nat → Store → List Nat → List Nat → List Nat → List Nat → PassResult
  | [], _, store, running, active, dispatched, started =>
      ⟨store, running, active, dispatched, started, []⟩
  | id :: rest, slots, store, running, active, dispatched, started =>
      if slots = 0 then ⟨store, running, active, dispatched, started, id :: rest⟩
      else
        match getTask store id with
        | none => processLoop sources exc rest slots store running active dispatched started
        | some t =>
            if t.status = Status.pending then
              let r := startDownload store sources exc active id
              if r.1 then
                processLoop sources exc rest (slots - 1) r.2.1 (running ++ [id]) r.2.2
                  (dispatched ++ [id]) (started ++ [id])
              else
                processLoop sources exc rest slots r.2.1 running r.2.2
                  (dispatched ++ [id]) started
            else
              processLoop sources exc rest slots store running active dispatched started

/-- TaskScheduler._process_queue: first reclaim the slots of finished
    monitor units (task.done()), then run the admission loop with
    available_slots = max_concurrent_tasks - len(running_tasks). -/
def processQueue (sources : SourceStore) (exc : Nat → Option String) (maxConcurrentTasks : Nat)
    (store : Store) (running queue active : List Nat) : PassResult :=
  let running := running.filter (fun id => !(monitorDone store id))
  processLoop sources exc queue (maxConcurrentTasks - running.length) store running active [] []

/-! ### stop_scheduler and asynchronous-unit handles -/

/-- An asyncio task handle: cancel() merely requests cancellation; the
    coroutine observes it only at its next suspension point. -/
structure AsyncHandle where
  cancelRequested : Bool
  observedCancel : Bool
deriving DecidableEq, Repr

/-- asyncio.Task.cancel(): request cancellation; observation is deferred. -/
def cancelHandle (u : AsyncHandle) : AsyncHandle :=
  { u with cancelRequested := true }

/-- Scheduler-level state relevant to stop_scheduler: the scheduler flag,
    the monitor units tracked in running_tasks (with their runtime handles),
    and the transfer coroutines tracked in the download service's
    active_downloads (with their runtime handles). -/
structure SchedulerState where
  schedulerRunning : Bool
  runningTasks : List Nat
  monitorUnits : Nat → AsyncHandle
  activeDownloads : List Nat
  transferUnits : Nat → AsyncHandle

/-- TaskScheduler.stop_scheduler: clear the scheduler flag, call cancel() on
    each monitor handle in running_tasks, clear running_tasks, and return.
    Nothing is awaited and the download service's active_downloads map and
    its transfer coroutines are not touched. -/
def stopScheduler (s : SchedulerState) : SchedulerState :=
  { s with
    schedulerRunning := false
    monitorUnits := fun id =>
      if id ∈ s.runningTasks then cancelHandle (s.monitorUnits id) else s.monitorUnits id
    runningTasks := [] }

/-- DownloadService.cancel_download: if the id has an active transfer, call
    cancel() on it and drop it from active_downloads; then unconditionally
    set the stored status to cancelled and return True. -/
def cancelDownload (store : Store) (active : List Nat) (id : Nat) :
    Store × List Nat × Bool :=
  let active := if id ∈ active then active.erase id else active
  (setStatus store id .cancelled none, active, true)

/-! ### Filename pattern handling (DownloadService._get_file_pattern and
    _extract_files_from_directory) -/

/-- Replacement of every occurrence of a character by a string. The source
    calls str.replace with the one-character needles dot, star and question
    mark only, for which Python's left-to-right non-overlapping replacement
    is exactly this per-character substitution. -/
def replaceChar (s : List Char) (c : Char) (r : List Char) : List Char :=
  match s with
  | [] => []
  | x :: xs => (if x = c then r else [x]) ++ replaceChar xs c r

/-- str.replace lifted back to String for the three calls in the source. -/
def strReplaceChar (s : String) (c : Char) (r : String) : String :=
  String.mk (replaceChar s.toList c r.toList)

/-- DownloadService._get_file_pattern: an empty/absent pattern defaults to
    the expression matching .nc files; otherwise the glob is turned into a
    match expression by escaping dots, turning each star into dot-star and
    each question mark into a dot, and anchoring both ends. -/
def getFilePattern (filenamePattern : String) : String :=
  if filenamePattern = "" then ".*\\.nc$"
  else
    let pattern := strReplaceChar filenamePattern '.' "\\."
    let pattern := strReplaceChar pattern '*' ".*"
    let pattern := strReplaceChar pattern '?' "."
    "^" ++ pattern ++ "$"

/-- An atom of the produced match expression: a literal character (from a
    plain or backslash-escaped character) or the any-character dot. -/
inductive RTok where
  | lit (c : Char)
  | anyc
deriving DecidableEq, Repr

/-- An atom together with a postfix-star flag. -/
structure RItem where
  tok : RTok
  starred : Bool
deriving DecidableEq, Repr

/-- Parse the produced expression (anchors already stripped) into atoms:
    a backslash escapes the next character to a literal, an unescaped dot is
    the any-character atom, and a following star sets the star flag. -/
def parseItems : List Char → List RItem
  | [] => []
  | '\\' :: c :: '*' :: rest => ⟨.lit c, true⟩ :: parseItems rest
  | '\\' :: c :: rest => ⟨.lit c, false⟩ :: parseItems rest
  | ['\\'] => []
  | c :: '*' :: rest => ⟨(if c = '.' then .anyc else .lit c), true⟩ :: parseItems rest
  | c :: rest => ⟨(if c = '.' then .anyc else .lit c), false⟩ :: parseItems rest

/-- Strip the start anchor and the end anchor. re.match anchors at the
    start anyway; every expression produced by _get_file_pattern ends in a
    dollar anchor, so its semantics is a full match of the item list. -/
def stripAnchors (r : List Char) : List Char :=
  let r := match r with
    | '^' :: rest => rest
    | _ => r
  if r.getLast? = some '$' then r.dropLast else r

/-- The compiled form of a Task's filename pattern. -/
def compilePattern (filenamePattern : String) : List RItem :=
  parseItems (stripAnchors (getFilePattern filenamePattern).toList)

/-- Atom-versus-character match under re.IGNORECASE: characters are
    compared lowercased. -/
def tokMatch (t : RTok) (c : Char) : Bool :=
  match t with
  | .anyc => true
  | .lit l => l.toLower = c.toLower

/-- The suffixes v of s such that s = u ++ v and every character of u
    matches the atom t: the ways a starred atom can split the input. -/
def starSplits (t : RTok) (s : List Char) : List (List Char) :=
  match s with
  | [] => [[]]
  | c :: cs => (c :: cs) :: (if tokMatch t c then starSplits t cs else [])

/-- Full match of an atom list against a character list: a starred atom
    consumes zero or more matching characters, an unstarred one exactly
    one. -/
def rmatch (ps : List RItem) (s : List Char) : Bool :=
  match ps with
  | [] => s.isEmpty
  | ⟨t, false⟩ :: ps =>
      match s with
      | [] => false
      | c :: cs => tokMatch t c && rmatch ps cs
  | ⟨t, true⟩ :: ps => (starSplits t s).any (fun v => rmatch ps v)

/-- regex_pattern.match(filename) on the compiled pattern. -/
def matchesPattern (filenamePattern name : String) : Bool :=
  rmatch (compilePattern filenamePattern) name.toList

/-- The filename extracted from a listing entry by split on slash and
    taking the last piece: the part of the href after the last slash. -/
def lastSegment (href : String) : String :=
  String.mk (href.toList.foldl (fun acc c => if c = '/' then [] else acc ++ [c]) [])

/-- DownloadService._extract_files_from_directory, restricted to its
    filtering decision: keep exactly the listing entries whose extracted
    filename matches the compiled pattern. -/
def extractFilesFromListing (filenamePattern : String) (hrefs : List String) : List String :=
  hrefs.filter (fun href => matchesPattern filenamePattern (lastSegment href))

/-! ### Directory-mode transfer (DownloadService._download_directory inside
    DownloadService._create_download_task) -/

/-- The transfer outcome of one matched file, supplied by an oracle: the
    fetch succeeded, responded with a non-200 status (logged and skipped),
    or raised (logged and skipped). -/
inductive FileResult where
  | ok
  | httpFail
  | exn
deriving DecidableEq, Repr

/-- The downloaded_files counter at the end of the per-file loop: failures
    are skipped with continue and only successful transfers count. -/
def countOk : List FileResult → Nat
  | [] => 0
  | .ok :: rest => countOk rest + 1
  | _ :: rest => countOk rest

/-- DownloadService._download_directory, as a function of the matched-file
    transfer outcomes: an empty match list raises, a run in which every file
    failed raises, and otherwise the loop finishes normally. -/
def downloadDirectory (matchedFiles : List FileResult) : Except String Unit :=
  if matchedFiles.isEmpty then
    .error "no files matching the pattern were found in the directory"
  else if countOk matchedFiles = 0 then
    .error "all file downloads failed"
  else
    .ok ()

/-- The _create_download_task wrapper around a directory-mode run: a
    CancelledError observed by the coroutine resolves to cancelled, an
    exception (including the two raises above) resolves to failed with the
    exception message, and a normal finish writes completed and then
    progress 100. No code path reads the task's timeout field. -/
def runDirectoryTask (store : Store) (id : Nat) (cancelled : Bool)
    (matchedFiles : List FileResult) : Store :=
  if cancelled then setStatus store id .cancelled none
  else
    match downloadDirectory matchedFiles with
    | .error e => setStatus store id .failed (some e)
    | .ok _ => updateProgress (setStatus store id .completed none) id 100 none

/-- The status recorded for a task id. -/
def statusOf (store : Store) (id : Nat) : Option Status :=
  (getTask store id).map Task.status

/-- A task id whose stored record (if any) is not pending. -/
def notPending (store : Store) (id : Nat) : Prop :=
  ∀ t, getTask store id = some t → t.status ≠ Status.pending

/-! ### Store lemmas -/

theorem getTask_setTask_self (s : Store) (id : Nat) (t t0 : Task)
    (h : getTask s id = some t0) : getTask (setTask s id t) id = some t := by
  induction s with
  | nil => simp [getTask] at h
  | cons p rest ih =>
      by_cases hp : p.1 = id
      · simp [getTask, setTask, hp, List.find?_cons_of_pos]
      · have hpred : ¬ (decide (p.1 = id) = true) := by simp [hp]
        simp only [getTask, List.find?_cons_of_neg, hp, decide_eq_true_eq,
          not_false_eq_true] at h
        simp only [setTask, List.map_cons, if_neg hp, getTask]
        rw [List.find?_cons_of_neg _ (by simp [hp])]
        exact ih h

theorem getTask_setTask_ne (s : Store) (id j : Nat) (t : Task) (h : j ≠ id) :
    getTask (setTask s id t) j = getTask s j := by
  induction s with
  | nil => simp [getTask, setTask]
  | cons p rest ih =>
      by_cases hp : p.1 = id
      · subst hp
        simp only [setTask, List.map_cons, if_pos rfl, getTask]
        rw [List.find?_cons_of_neg _ (by simp [Ne.symm h]),
          List.find?_cons_of_neg _ (by simp [Ne.symm h])]
        exact ih
      · simp only [setTask, List.map_cons, if_neg hp, getTask]
        by_cases hj : p.1 = j
        · rw [List.find?_cons_of_pos _ (by simp [hj]),
            List.find?_cons_of_pos _ (by simp [hj])]
        · rw [List.find?_cons_of_neg _ (by simp [hj]),
            List.find?_cons_of_neg _ (by simp [hj])]
          exact ih

/-- The record written by set_status for an existing task. -/
def statusWritten (t : Task) (st : Status) (err : Option String) : Task :=
  match err with
  | some e =>
      if e = "" then { t with status := st }
      else { t with status := st, errorMessage := some e }
  | none => { t with status := st }

theorem getTask_setStatus_self (s : Store) (id : Nat) (st : Status)
    (err : Option String) (t : Task) (h : getTask s id = some t) :
    getTask (setStatus s id st err) id = some (statusWritten t st err) := by
  unfold setStatus
  rw [h]
  cases err with
  | none => exact getTask_setTask_self s id _ t h
  | some e =>
      by_cases he : e = "" <;>
        simp only [statusWritten, he, if_pos, if_neg, reduceIte] <;>
        exact getTask_setTask_self s id _ t h

theorem getTask_setStatus_ne (s : Store) (id j : Nat) (st : Status)
    (err : Option String) (h : j ≠ id) :
    getTask (setStatus s id st err) j = getTask s j := by
  unfold setStatus
  cases hg : getTask s id with
  | none => rfl
  | some t => exact getTask_setTask_ne s id j _ h

theorem setStatus_status (s : Store) (id : Nat) (st : Status)
    (err : Option String) (t : Task) (h : getTask s id = some t) :
    statusOf (setStatus s id st err) id = some st := by
  rw [statusOf, getTask_setStatus_self s id st err t h]
  cases err with
  | none => rfl
  | some e => by_cases he : e = "" <;> simp [statusWritten, he]

theorem getTask_updateProgress_self (s : Store) (id : Nat) (p : Rat)
    (dl : Option Nat) (t : Task) (h : getTask s id = some t) :
    getTask (updateProgress s id p dl) id =
      some (match dl with
        | some d => { t with progress := p, downloadedSize := d }
        | none => { t with progress := p }) := by
  unfold updateProgress
  rw [h]
  cases dl with
  | none => exact getTask_setTask_self s id _ t h
  | some d => exact getTask_setTask_self s id _ t h

theorem notPending_setStatus (s : Store) (id j : Nat) (st : Status)
    (err : Option String) (hst : st ≠ Status.pending)
    (h : notPending s j) : notPending (setStatus s id st err) j := by
  by_cases hj : j = id
  · subst hj
    intro t' ht'
    cases hg : getTask s j with
    | none => rw [setStatus, hg] at ht'; exact h t' ht'
    | some t =>
        rw [getTask_setStatus_self s j st err t hg] at ht'
        cases ht'
        cases err with
        | none => exact hst
        | some e => by_cases he : e = "" <;> simp [statusWritten, he] <;> exact hst
  · intro t' ht'
    rw [getTask_setStatus_ne s id j st err hj] at ht'
    exact h t' ht'

theorem notPending_startDownload (store : Store) (sources : SourceStore)
    (exc : Nat → Option String) (active : List Nat) (id j : Nat)
    (h : notPending store j) :
    notPending (startDownload store sources exc active id).2.1 j := by
  cases hexc : exc id with
  | some e =>
      simp only [startDownload, hexc]
      exact notPending_setStatus store id j .failed (some e) (by simp) h
  | none =>
      cases hg : getTask store id with
      | none => simp only [startDownload, hexc, hg]; exact h
      | some t =>
          cases hs : getSource sources t.sourceId with
          | none => simp only [startDownload, hexc, hg, hs]; exact h
          | some d =>
              simp only [startDownload, hexc, hg, hs]
              exact notPending_setStatus store id j .running none (by simp) h

/-! ### Admission-loop lemmas -/

/-- Each pass extends running_tasks and the started list by one and the
    same block of ids, of size at most the free slots. -/
theorem processLoop_spec (sources : SourceStore) (exc : Nat → Option String) :
    ∀ (q : List Nat) (slots : Nat) (store : Store)
      (running active dispatched started : List Nat),
      ∃ δ : List Nat,
        (processLoop sources exc q slots store running active dispatched started).running
            = running ++ δ ∧
        (processLoop sources exc q slots store running active dispatched started).started
            = started ++ δ ∧
        δ.length ≤ slots := by
  intro q
  induction q with
  | nil =>
      intro slots store running active dispatched started
      exact ⟨[], by simp [processLoop], by simp [processLoop], by simp⟩
  | cons x rest ih =>
      intro slots store running active dispatched started
      by_cases hz : slots = 0
      · exact ⟨[], by simp [processLoop, hz], by simp [processLoop, hz], by simp⟩
      · cases hg : getTask store x with
        | none =>
            simpa [processLoop, hz, hg] using ih slots store running active dispatched started
        | some t =>
            by_cases hp : t.status = Status.pending
            · by_cases hr : (startDownload store sources exc active x).1 = true
              · obtain ⟨δ, h1, h2, h3⟩ :=
                  ih (slots - 1) (startDownload store sources exc active x).2.1
                    (running ++ [x]) (startDownload store sources exc active x).2.2
                    (dispatched ++ [x]) (started ++ [x])
                refine ⟨x :: δ, ?_, ?_, ?_⟩
                · simpa [processLoop, hz, hg, hp, hr] using h1
                · simpa [processLoop, hz, hg, hp, hr] using h2
                · have : 1 ≤ slots := Nat.pos_of_ne_zero hz
                  simp only [List.length_cons]
                  omega
              · simpa [processLoop, hz, hg, hp, hr] using
                  ih slots (startDownload store sources exc active x).2.1 running
                    (startDownload store sources exc active x).2.2 (dispatched ++ [x]) started
            · simpa [processLoop, hz, hg, hp] using
                ih slots store running active dispatched started

/-- The queue left after a pass is a suffix of the input queue: the loop
    only pops from the front and never re-inserts. -/
theorem processLoop_queue_suffix (sources : SourceStore) (exc : Nat → Option String) :
    ∀ (q : List Nat) (slots : Nat) (store : Store)
      (running active dispatched started : List Nat),
      (processLoop sources exc q slots store running active dispatched started).queue <:+ q := by
  intro q
  induction q with
  | nil =>
      intro slots store running active dispatched started
      simp [processLoop]
  | cons x rest ih =>
      intro slots store running active dispatched started
      have hsub : ∀ l, l <:+ rest → l <:+ x :: rest := by
        intro l hl
        exact hl.trans (List.suffix_cons x rest)
      by_cases hz : slots = 0
      · simp [processLoop, hz]
      · cases hg : getTask store x with
        | none =>
            have h := ih slots store running active dispatched started
            exact hsub _ (by simpa [processLoop, hz, hg] using h)
        | some t =>
            by_cases hp : t.status = Status.pending
            · by_cases hr : (startDownload store sources exc active x).1 = true
              · have h := ih (slots - 1) (startDownload store sources exc active x).2.1
                  (running ++ [x]) (startDownload store sources exc active x).2.2
                  (dispatched ++ [x]) (started ++ [x])
                exact hsub _ (by simpa [processLoop, hz, hg, hp, hr] using h)
              · have h := ih slots (startDownload store sources exc active x).2.1 running
                  (startDownload store sources exc active x).2.2 (dispatched ++ [x]) started
                exact hsub _ (by simpa [processLoop, hz, hg, hp, hr] using h)
            · have h := ih slots store running active dispatched started
              exact hsub _ (by simpa [processLoop, hz, hg, hp] using h)

/-- Every id handed to start_download during a pass came from the input
    queue (or the dispatched accumulator). -/
theorem processLoop_dispatched_mem (sources : SourceStore) (exc : Nat → Option String) :
    ∀ (q : List Nat) (slots : Nat) (store : Store)
      (running active dispatched started : List Nat) (id : Nat),
      id ∈ (processLoop sources exc q slots store running active dispatched started).dispatched →
      id ∈ dispatched ∨ id ∈ q := by
  intro q
  induction q with
  | nil =>
      intro slots store running active dispatched started id h
      exact Or.inl (by simpa [processLoop] using h)
  | cons x rest ih =>
      intro slots store running active dispatched started id h
      by_cases hz : slots = 0
      · exact Or.inl (by simpa [processLoop, hz] using h)
      · cases hg : getTask store x with
        | none =>
            rcases ih slots store running active dispatched started id
              (by simpa [processLoop, hz, hg] using h) with h' | h'
            · exact Or.inl h'
            · exact Or.inr (List.mem_cons_of_mem x h')
        | some t =>
            by_cases hp : t.status = Status.pending
            · by_cases hr : (startDownload store sources exc active x).1 = true
              · rcases ih (slots - 1) (startDownload store sources exc active x).2.1
                  (running ++ [x]) (startDownload store sources exc active x).2.2
                  (dispatched ++ [x]) (started ++ [x]) id
                  (by simpa [processLoop, hz, hg, hp, hr] using h) with h' | h'
                · rcases List.mem_append.mp h' with h'' | h''
                  · exact Or.inl h''
                  · exact Or.inr (by rw [List.mem_singleton.mp h'']; exact List.mem_cons_self x rest)
                · exact Or.inr (List.mem_cons_of_mem x h')
              · rcases ih slots (startDownload store sources exc active x).2.1 running
                  (startDownload store sources exc active x).2.2 (dispatched ++ [x]) started id
                  (by simpa [processLoop, hz, hg, hp, hr] using h) with h' | h'
                · rcases List.mem_append.mp h' with h'' | h''
                  · exact Or.inl h''
                  · exact Or.inr (by rw [List.mem_singleton.mp h'']; exact List.mem_cons_self x rest)
                · exact Or.inr (List.mem_cons_of_mem x h')
            · rcases ih slots store running active dispatched started id
                (by simpa [processLoop, hz, hg, hp] using h) with h' | h'
              · exact Or.inl h'
              · exact Or.inr (List.mem_cons_of_mem x h')

/-- A task whose stored record is not pending when the pass runs is never
    handed to start_download: the loop re-verifies the status after popping
    and the pass itself only ever writes running and failed statuses. -/
theorem processLoop_dispatched_not_pending (sources : SourceStore) (exc : Nat → Option String) :
    ∀ (q : List Nat) (slots : Nat) (store : Store)
      (running active dispatched started : List Nat) (id : Nat),
      notPending store id → id ∉ dispatched →
      id ∉ (processLoop sources exc q slots store running active dispatched started).dispatched := by
  intro q
  induction q with
  | nil =>
      intro slots store running active dispatched started id hnp hnd
      simpa [processLoop] using hnd
  | cons x rest ih =>
      intro slots store running active dispatched started id hnp hnd
      by_cases hz : slots = 0
      · simpa [processLoop, hz] using hnd
      · cases hg : getTask store x with
        | none =>
            have h := ih slots store running active dispatched started id hnp hnd
            simpa [processLoop, hz, hg] using h
        | some t =>
            by_cases hp : t.status = Status.pending
            · have hxid : x ≠ id := by
                intro hx
                subst hx
                exact hnp t hg hp
              have hnd' : id ∉ dispatched ++ [x] := by
                simp only [List.mem_append, List.mem_singleton]
                rintro (h' | h')
                · exact hnd h'
                · exact hxid h'.symm
              have hnp' : notPending (startDownload store sources exc active x).2.1 id :=
                notPending_startDownload store sources exc active x id hnp
              by_cases hr : (startDownload store sources exc active x).1 = true
              · have h := ih (slots - 1) (startDownload store sources exc active x).2.1
                  (running ++ [x]) (startDownload store sources exc active x).2.2
                  (dispatched ++ [x]) (started ++ [x]) id hnp' hnd'
                simpa [processLoop, hz, hg, hp, hr] using h
              · have h := ih slots (startDownload store sources exc active x).2.1 running
                  (startDownload store sources exc active x).2.2 (dispatched ++ [x]) started id
                  hnp' hnd'
                simpa [processLoop, hz, hg, hp, hr] using h
            · have h := ih slots store running active dispatched started id hnp hnd
              simpa [processLoop, hz, hg, hp] using h

/-! ### Concrete fixtures -/

/-- A freshly created pending task referring to data source 42. -/
def sampleTask : Task :=
  { sourceId := 42, savePath := "downloads/x", filenamePattern := "*.nc",
    maxRetries := 3, timeout := 300, status := .pending, progress := 0,
    fileSize := none, downloadedSize := 0, errorMessage := none,
    metaPriority := none }

/-- The no-exception oracle. -/
def noExc : Nat → Option String := fun _ => none

/-- A store holding two pending tasks with ids 1 and 2. -/
def twoTaskStore : Store := [(1, sampleTask), (2, sampleTask)]

/-- Two enqueues through the real entry point: task 1 with the first
    priority, then task 2 with the second. -/
def enqueueTwice (p1 p2 : Nat) : Except String (Store × List Nat) := do
  let r1 ← addTaskToQueue twoTaskStore [] 1 p1
  addTaskToQueue r1.1 r1.2 2 p2

/-! ### Claim theorems -/

/-- C1: the claim says the pending queue is kept in ascending priority
    order with FIFO among equal priorities. The code evaluates against it:
    _get_task_priority ignores the stored priority and returns the constant
    5, so _insert_by_priority compares the new priority with 5. Enqueuing
    equal priorities 3 and 3 yields queue [2, 1] - LIFO, not FIFO - and
    enqueuing priorities 7 then 6 yields [1, 2], which is descending in the
    enqueued priorities. -/
theorem c1_queue_order_violated_at_failing_input :
    insertByPriority (insertByPriority [] 1 3) 2 3 = [2, 1] ∧
    insertByPriority (insertByPriority [] 1 7) 2 6 = [1, 2] ∧
    (enqueueTwice 3 3).toOption.map Prod.snd = some [2, 1] ∧
    (enqueueTwice 7 6).toOption.map Prod.snd = some [1, 2] :=
  ⟨rfl, rfl, rfl, rfl⟩

/-- C5: the glob-style filename_pattern is converted into an anchored,
    case-insensitive match expression in which a star matches any sequence,
    a question mark exactly one character, and a dot is literal; an empty
    pattern defaults to the .nc expression; and exactly the matching
    listing entries are kept: for pattern star-dot-nc against the listing
    [a.nc, b.csv, c.nc] exactly [a.nc, c.nc] is selected. -/
theorem c5_pattern_conversion_and_filtering :
    getFilePattern "" = ".*\\.nc$" ∧
    getFilePattern "*.nc" = "^.*\\.nc$" ∧
    compilePattern "*.nc" =
      [⟨.anyc, true⟩, ⟨.lit '.', false⟩, ⟨.lit 'n', false⟩, ⟨.lit 'c', false⟩] ∧
    compilePattern "a?c" = [⟨.lit 'a', false⟩, ⟨.anyc, false⟩, ⟨.lit 'c', false⟩] ∧
    extractFilesFromListing "*.nc" ["a.nc", "b.csv", "c.nc"] = ["a.nc", "c.nc"] ∧
    matchesPattern "*.nc" "A.NC" = true ∧
    matchesPattern "*.nc" "a.nc.txt" = false ∧
    matchesPattern "*.nc" "xnc" = false ∧
    matchesPattern "data-?.nc" "data-1.nc" = true ∧
    matchesPattern "data-?.nc" "data-12.nc" = false ∧
    extractFilesFromListing "" ["a.nc", "b.csv"] = ["a.nc"] ∧
    (∀ s : List Char,
      rmatch (compilePattern "*.nc") s = true ↔
        ∃ u v, s = u ++ v ∧ v.map Char.toLower = ['.', 'n', 'c']) := by
  refine ⟨rfl, rfl, rfl, rfl, rfl, rfl, rfl, rfl, rfl, rfl, rfl, ?_⟩
  intro s
  have htails : starSplits RTok.anyc s = s.tails := by
    induction s with
    | nil => rfl
    | cons c cs ih => simp [starSplits, tokMatch, ih]
  have hnc : ∀ v : List Char,
      rmatch [⟨.lit '.', false⟩, ⟨.lit 'n', false⟩, ⟨.lit 'c', false⟩] v = true ↔
        v.map Char.toLower = ['.', 'n', 'c'] := by
    intro v
    match v with
    | [] => simp [rmatch]
    | [a] => simp [rmatch, tokMatch]
    | [a, b] => simp [rmatch, tokMatch]
    | a :: b :: c :: rest =>
        cases rest with
        | nil =>
            simp only [rmatch, tokMatch, List.map_cons, List.map_nil, Bool.and_eq_true,
              decide_eq_true_eq, List.cons.injEq, and_true]
            constructor
            · rintro ⟨h1, h2, h3, _⟩
              exact ⟨h1.symm, h2.symm, h3.symm⟩
            · rintro ⟨h1, h2, h3⟩
              exact ⟨h1.symm, h2.symm, h3.symm, rfl⟩
        | cons d rest' => simp [rmatch, tokMatch]
  show rmatch (⟨.anyc, true⟩ :: [⟨.lit '.', false⟩, ⟨.lit 'n', false⟩, ⟨.lit 'c', false⟩]) s
      = true ↔ _
  rw [rmatch]
  simp only [htails, List.any_eq_true, List.mem_tails]
  constructor
  · rintro ⟨v, hv, hm⟩
    obtain ⟨u, hu⟩ := hv
    exact ⟨u, v, hu.symm, (hnc v).mp hm⟩
  · rintro ⟨u, v, hsv, hm⟩
    exact ⟨v, ⟨u, hsv.symm⟩, (hnc v).mpr hm⟩

/-- C2: running_tasks never exceeds max_concurrent_tasks across an
    admission pass; the pass starts at most (max_concurrent_tasks - running)
    tasks; and an id tracked as running is dropped from running_tasks only
    when its monitor unit has finished (task.done()). -/
theorem c2_concurrency_bound (sources : SourceStore) (exc : Nat → Option String)
    (maxC : Nat) (store : Store) (running queue active : List Nat)
    (h : running.length ≤ maxC) :
    (processQueue sources exc maxC store running queue active).running.length ≤ maxC ∧
    (processQueue sources exc maxC store running queue active).started.length ≤
      maxC - (running.filter (fun id => !(monitorDone store id))).length ∧
    (∀ id ∈ running, id ∉ (processQueue sources exc maxC store running queue active).running →
      monitorDone store id = true) := by
  have hflen : (running.filter (fun id => !(monitorDone store id))).length ≤ maxC :=
    le_trans (List.length_filter_le _ _) h
  obtain ⟨δ, h1, h2, h3⟩ := processLoop_spec sources exc queue
    (maxC - (running.filter (fun id => !(monitorDone store id))).length) store
    (running.filter (fun id => !(monitorDone store id))) active [] []
  refine ⟨?_, ?_, ?_⟩
  · show (processLoop sources exc queue _ store _ active [] []).running.length ≤ maxC
    rw [h1]
    simp only [List.length_append]
    omega
  · show (processLoop sources exc queue _ store _ active [] []).started.length ≤ _
    rw [h2]
    simpa using h3
  · intro id hid hnot
    by_contra hmd
    apply hnot
    show id ∈ (processLoop sources exc queue _ store _ active [] []).running
    rw [h1]
    exact List.mem_append_left δ
      (List.mem_filter.mpr ⟨hid, by simp [Bool.not_eq_true] at hmd ⊢; exact hmd⟩)

/-- A concrete source table holding source 42. -/
def sampleSources : SourceStore :=
  [(42, { url := "http://example.org/data/", protocol := "HTTP", authRequired := false })]

/-- Witness for c2_concurrency_bound at a concrete state. -/
theorem c2_concurrency_bound_witness :
    (processQueue sampleSources noExc 1 twoTaskStore [] [1, 2] []).running.length ≤ 1 :=
  (c2_concurrency_bound sampleSources noExc 1 twoTaskStore [] [1, 2] []
    (by decide)).1

/-- C3: an id absent from the pending queue when the pass runs is never
    handed to start_download (so a task fully removed by
    remove_task_from_queue gets zero transfer-driver invocations), and an id
    whose stored record is missing or no longer pending when it is popped is
    skipped without invoking start_download. -/
theorem c3_removed_or_nonpending_not_dispatched (sources : SourceStore)
    (exc : Nat → Option String) (maxC : Nat) (store : Store)
    (running queue active : List Nat) (id : Nat) :
    (queue.count id ≤ 1 →
      id ∉ (processQueue sources exc maxC store running
        (removeTaskFromQueue queue id) active).dispatched) ∧
    (notPending store id →
      id ∉ (processQueue sources exc maxC store running queue active).dispatched) := by
  constructor
  · intro hcount hmem
    have hnotin : id ∉ removeTaskFromQueue queue id := by
      unfold removeTaskFromQueue
      by_cases hq : id ∈ queue
      · rw [if_pos hq]
        intro hmem'
        have he := List.count_erase_self id queue
        have hpos : 0 < (queue.erase id).count id := List.count_pos_iff.mpr hmem'
        have hqpos : 0 < queue.count id := List.count_pos_iff.mpr hq
        omega
      · rw [if_neg hq]; exact hq
    rcases processLoop_dispatched_mem sources exc (removeTaskFromQueue queue id) _ store _
      active [] [] id hmem with h' | h'
    · simp at h'
    · exact hnotin h'
  · intro hnp hmem
    exact processLoop_dispatched_not_pending sources exc queue _ store _ active [] [] id hnp
      (by simp) hmem

/-- Witness for c3_removed_or_nonpending_not_dispatched at a concrete
    state. -/
theorem c3_removed_or_nonpending_not_dispatched_witness :
    1 ∉ (processQueue sampleSources noExc 10 twoTaskStore []
      (removeTaskFromQueue [1, 2] 1) []).dispatched :=
  (c3_removed_or_nonpending_not_dispatched sampleSources noExc 10 twoTaskStore [] [1, 2]
    [] 1).1 (by decide)

/-- A store holding only the pending task 1, whose data source 42 is absent
    from the empty source table. -/
def orphanStore : Store := [(1, sampleTask)]

/-- C4 counterexample: with the DataSource record missing, dispatch fails
    (start_download returns False) but the task is NOT marked failed - its
    stored status is still pending, refuting the claim that every dispatch
    failure marks the task Failed immediately. -/
theorem c4_missing_source_not_marked_failed :
    (startDownload orphanStore [] noExc [] 1).1 = false ∧
    statusOf (startDownload orphanStore [] noExc [] 1).2.1 1 = some Status.pending :=
  ⟨rfl, rfl⟩

/-- C4 amended: when dispatch raises, the except branch marks the task
    failed with the exception message and returns False; when the Task or
    its DataSource record is missing, start_download returns False leaving
    the store unchanged (no Failed mark); in every case a failed dispatch
    occupies no concurrency slot (only ids whose dispatch returned True
    enter running_tasks) and the popped id is never re-inserted into the
    pending queue (the queue after a pass is a suffix of the input queue). -/
theorem c4_dispatch_failure_semantics (store : Store) (sources : SourceStore)
    (exc : Nat → Option String) (active : List Nat) (id maxC : Nat)
    (running queue : List Nat) :
    (∀ e, exc id = some e →
      startDownload store sources exc active id =
        (false, setStatus store id .failed (some e), active)) ∧
    (∀ t, exc id = none → getTask store id = some t →
      getSource sources t.sourceId = none →
      startDownload store sources exc active id = (false, store, active)) ∧
    ((processQueue sources exc maxC store running queue active).queue <:+ queue) ∧
    (id ∉ running →
      id ∈ (processQueue sources exc maxC store running queue active).running →
      id ∈ (processQueue sources exc maxC store running queue active).started) := by
  refine ⟨?_, ?_, ?_, ?_⟩
  · intro e he
    simp [startDownload, he]
  · intro t he ht hs
    simp [startDownload, he, ht, hs]
  · exact processLoop_queue_suffix sources exc queue _ store _ active [] []
  · intro hnr hmem
    obtain ⟨δ, h1, h2, h3⟩ := processLoop_spec sources exc queue
      (maxC - (running.filter (fun i => !(monitorDone store i))).length) store
      (running.filter (fun i => !(monitorDone store i))) active [] []
    have hmem' : id ∈ (running.filter (fun i => !(monitorDone store i))) ++ δ := by
      rw [← h1]; exact hmem
    rcases List.mem_append.mp hmem' with h' | h'
    · exact absurd (List.mem_filter.mp h').1 hnr
    · show id ∈ (processLoop sources exc queue _ store _ active [] []).started
      rw [h2]
      simpa using h'

/-- Witness for c4_dispatch_failure_semantics at a concrete state: the
    missing-source path at orphanStore. -/
theorem c4_dispatch_failure_semantics_witness :
    startDownload orphanStore [] noExc [] 1 = (false, orphanStore, []) :=
  (c4_dispatch_failure_semantics orphanStore [] noExc [] 1 0 [] []).2.1 sampleTask
    rfl rfl rfl

/-- C6: in directory mode a per-file failure is skipped without aborting
    the task: the run ends failed exactly when zero matched files were
    transferred successfully (including the empty-match case), and whenever
    at least one file succeeded the task ends completed with progress
    written as 100. -/
theorem c6_directory_partial_failure (store : Store) (id : Nat) (t : Task)
    (files : List FileResult) (h : getTask store id = some t) :
    ((statusOf (runDirectoryTask store id false files) id = some Status.failed) ↔
      countOk files = 0) ∧
    (0 < countOk files →
      statusOf (runDirectoryTask store id false files) id = some Status.completed ∧
      (getTask (runDirectoryTask store id false files) id).map Task.progress =
        some 100) := by
  by_cases hemp : files.isEmpty = true
  · have hc : countOk files = 0 := by
      cases files with
      | nil => rfl
      | cons a l => simp at hemp
    have hrun : runDirectoryTask store id false files =
        setStatus store id .failed
          (some "no files matching the pattern were found in the directory") := by
      simp [runDirectoryTask, downloadDirectory, hemp]
    rw [hrun]
    constructor
    · rw [setStatus_status store id .failed _ t h]
      simp [hc]
    · intro hpos; omega
  · by_cases hz : countOk files = 0
    · have hrun : runDirectoryTask store id false files =
          setStatus store id .failed (some "all file downloads failed") := by
        simp [runDirectoryTask, downloadDirectory, hemp, hz]
      rw [hrun]
      constructor
      · rw [setStatus_status store id .failed _ t h]
        simp [hz]
      · intro hpos; omega
    · have hrun : runDirectoryTask store id false files =
          updateProgress (setStatus store id .completed none) id 100 none := by
        simp [runDirectoryTask, downloadDirectory, hemp, hz]
      rw [hrun]
      have h1 := getTask_setStatus_self store id .completed none t h
      have h2 := getTask_updateProgress_self (setStatus store id .completed none) id 100 none
        (statusWritten t .completed none) h1
      refine ⟨?_, fun _ => ⟨?_, ?_⟩⟩
      · simp only [statusOf, h2]
        simp [statusWritten, hz]
      · simp only [statusOf, h2]
        simp [statusWritten]
      · simp only [h2]
        simp [statusWritten]

/-- Witness for c6_directory_partial_failure at a concrete store and a run
    with one success and one per-file failure. -/
theorem c6_directory_partial_failure_witness :
    statusOf (runDirectoryTask orphanStore 1 false [FileResult.ok, FileResult.exn]) 1 =
      some Status.completed :=
  ((c6_directory_partial_failure orphanStore 1 sampleTask [FileResult.ok, FileResult.exn]
    rfl).2 (by decide)).1

/-- A scheduler state with one tracked monitor unit and one active transfer
    unit, neither cancelled yet. -/
def runningScheduler : SchedulerState :=
  { schedulerRunning := true
    runningTasks := [1]
    monitorUnits := fun _ => { cancelRequested := false, observedCancel := false }
    activeDownloads := [1]
    transferUnits := fun _ => { cancelRequested := false, observedCancel := false } }

/-- C7 counterexample: the entire effect of stop_scheduler is the returned
    state, so the call has returned while the transfer unit of the running
    download was never signalled (its cancel-requested flag is still false)
    and the cancelled monitor unit has not observed the cancellation
    request - refuting both the signal-every-transfer-unit part and the
    fire-and-wait (does-not-return-until-observed) part of the claim. -/
theorem c7_stop_returns_without_wait :
    ((stopScheduler runningScheduler).transferUnits 1).cancelRequested = false ∧
    ((stopScheduler runningScheduler).monitorUnits 1).observedCancel = false ∧
    (stopScheduler runningScheduler).schedulerRunning = false ∧
    (stopScheduler runningScheduler).activeDownloads = [1] :=
  ⟨rfl, rfl, rfl, rfl⟩

/-- C7 amended: stop_scheduler clears the scheduler flag (stops admitting
    new work), requests cancellation of every monitor unit tracked in
    running_tasks, and clears running_tasks - but it returns immediately:
    no unit's observed flag is awaited (the observed flag is unchanged) and
    the download service's transfer coroutines are untouched. -/
theorem c7_stop_scheduler_fire_and_forget (s : SchedulerState) :
    (stopScheduler s).schedulerRunning = false ∧
    (stopScheduler s).runningTasks = [] ∧
    (stopScheduler s).activeDownloads = s.activeDownloads ∧
    (stopScheduler s).transferUnits = s.transferUnits ∧
    (∀ id, id ∈ s.runningTasks →
      ((stopScheduler s).monitorUnits id).cancelRequested = true ∧
      ((stopScheduler s).monitorUnits id).observedCancel =
        (s.monitorUnits id).observedCancel) := by
  refine ⟨rfl, rfl, rfl, rfl, ?_⟩
  intro id hid
  simp [stopScheduler, hid, cancelHandle]

/-- Witness for c7_stop_scheduler_fire_and_forget at a concrete state. -/
theorem c7_stop_scheduler_fire_and_forget_witness :
    ((stopScheduler runningScheduler).monitorUnits 1).cancelRequested = true :=
  ((c7_stop_scheduler_fire_and_forget runningScheduler).2.2.2.2 1 (by decide)).1

/-- A store holding task 7 already in the terminal Completed state. -/
def completedStore : Store := [(7, { sampleTask with status := .completed })]

/-- C8 counterexample: cancel_download on a task already in the terminal
    Completed state unconditionally rewrites its status to Cancelled,
    refuting the claim that no engine operation moves a terminal task to a
    different status. -/
theorem c8_cancel_moves_completed_to_cancelled :
    statusOf completedStore 7 = some Status.completed ∧
    statusOf (cancelDownload completedStore [] 7).1 7 = some Status.cancelled :=
  ⟨rfl, rfl⟩

/-- C8 amended: the engine has no terminal-state guard: for every stored
    record, whatever its current status, cancel_download rewrites the
    status to Cancelled and set_status rewrites it to any requested
    status. -/
theorem c8_no_terminal_guard (store : Store) (active : List Nat) (id : Nat)
    (t : Task) (st : Status) (h : getTask store id = some t) :
    statusOf (cancelDownload store active id).1 id = some Status.cancelled ∧
    statusOf (setStatus store id st none) id = some st :=
  ⟨setStatus_status store id .cancelled none t h, setStatus_status store id st none t h⟩

/-- Witness for c8_no_terminal_guard at the concrete completed store. -/
theorem c8_no_terminal_guard_witness :
    statusOf (cancelDownload completedStore [] 7).1 7 = some Status.cancelled :=
  (c8_no_terminal_guard completedStore [] 7 { sampleTask with status := .completed }
    Status.failed rfl).1

/-- C9: no code path of the transfer run reads the task's timeout field:
    the terminal status and the recorded error message of a run are
    unchanged when the task's timeout is replaced by any other value, so no
    aggregate timeout is enforced and no timeout-specific failure exists. -/
theorem c9_timeout_never_enforced (t : Task) (n : Nat) (cancelled : Bool)
    (files : List FileResult) :
    statusOf (runDirectoryTask [(0, { t with timeout := n })] 0 cancelled files) 0 =
      statusOf (runDirectoryTask [(0, t)] 0 cancelled files) 0 ∧
    (getTask (runDirectoryTask [(0, { t with timeout := n })] 0 cancelled files) 0).map
        Task.errorMessage =
      (getTask (runDirectoryTask [(0, t)] 0 cancelled files) 0).map Task.errorMessage := by
  have hl : getTask [(0, { t with timeout := n })] 0 = some { t with timeout := n } := rfl
  have hr : getTask [(0, t)] 0 = some t := rfl
  cases cancelled with
  | true =>
      constructor
      · rw [show runDirectoryTask [(0, { t with timeout := n })] 0 true files =
              setStatus [(0, { t with timeout := n })] 0 .cancelled none from rfl,
            show runDirectoryTask [(0, t)] 0 true files =
              setStatus [(0, t)] 0 .cancelled none from rfl,
            setStatus_status _ 0 .cancelled none _ hl,
            setStatus_status _ 0 .cancelled none _ hr]
      · rw [show runDirectoryTask [(0, { t with timeout := n })] 0 true files =
              setStatus [(0, { t with timeout := n })] 0 .cancelled none from rfl,
            show runDirectoryTask [(0, t)] 0 true files =
              setStatus [(0, t)] 0 .cancelled none from rfl,
            getTask_setStatus_self _ 0 .cancelled none _ hl,
            getTask_setStatus_self _ 0 .cancelled none _ hr]
        rfl
  | false =>
      have hunfold : ∀ s : Store, runDirectoryTask s 0 false files =
          match downloadDirectory files with
          | .error e => setStatus s 0 .failed (some e)
          | .ok _ => updateProgress (setStatus s 0 .completed none) 0 100 none := by
        intro s; rfl
      rw [hunfold, hunfold]
      cases hd : downloadDirectory files with
      | error e =>
          constructor
          · rw [setStatus_status _ 0 .failed (some e) _ hl,
                setStatus_status _ 0 .failed (some e) _ hr]
          · rw [getTask_setStatus_self _ 0 .failed (some e) _ hl,
                getTask_setStatus_self _ 0 .failed (some e) _ hr]
            by_cases he : e = "" <;> simp [statusWritten, he]
      | ok u =>
          have h1l := getTask_setStatus_self [(0, { t with timeout := n })] 0 .completed none _ hl
          have h1r := getTask_setStatus_self [(0, t)] 0 .completed none _ hr
          have h2l := getTask_updateProgress_self _ 0 100 none _ h1l
          have h2r := getTask_updateProgress_self _ 0 100 none _ h1r
          constructor
          · simp only [statusOf, h2l, h2r]
            simp [statusWritten]
          · simp only [h2l, h2r]
            simp [statusWritten]

/-! ### Queue-insertion lemmas for C10 -/

theorem insertByPriority_length (q : List Nat) (id pri : Nat) :
    (insertByPriority q id pri).length = q.length + 1 := by
  induction q with
  | nil => rfl
  | cons x xs ih =>
      unfold insertByPriority
      by_cases hp : pri < getTaskPriority x
      · simp [hp]
      · simp [hp, ih]

theorem insertByPriority_count_self (q : List Nat) (id pri : Nat) :
    (insertByPriority q id pri).count id = q.count id + 1 := by
  induction q with
  | nil => simp [insertByPriority]
  | cons x xs ih =>
      unfold insertByPriority
      by_cases hp : pri < getTaskPriority x
      · simp [hp, List.count_cons]
      · simp only [hp, if_neg, List.count_cons, ih, if_false]
        omega

/-- C10: add_task_to_queue raises ValueError for an unknown task id (the
    raise happens before the queue is touched, so the pending queue is
    unchanged); for a stored task it records the priority in task_metadata
    and inserts the id exactly once, growing the queue by exactly one entry
    and the id's multiplicity by exactly one. -/
theorem c10_add_task_semantics (store : Store) (q : List Nat) (id priority : Nat) :
    (getTask store id = none →
      addTaskToQueue store q id priority =
        .error ("Task " ++ toString id ++ " not found")) ∧
    (∀ t, getTask store id = some t →
      addTaskToQueue store q id priority =
        .ok (setTask store id { t with metaPriority := some priority },
          insertByPriority q id priority) ∧
      (insertByPriority q id priority).length = q.length + 1 ∧
      (insertByPriority q id priority).count id = q.count id + 1) := by
  constructor
  · intro h
    simp [addTaskToQueue, h]
  · intro t h
    exact ⟨by simp [addTaskToQueue, h], insertByPriority_length q id priority,
      insertByPriority_count_self q id priority⟩

/-- Witness for c10_add_task_semantics at a concrete store. -/
theorem c10_add_task_semantics_witness :
    addTaskToQueue twoTaskStore [] 1 3 =
      .ok (setTask twoTaskStore 1 { sampleTask with metaPriority := some 3 },
        insertByPriority [] 1 3) :=
  ((c10_add_task_semantics twoTaskStore [] 1 3).2 sampleTask rfl).1

end ODT
